import Mathlib

/-
Verification of the reconciliation core of the excel-comparator repository.

The repository holds two variants of the engine:
  * `backend/app.py` — the pairwise-comparison variant (schema ID, Name, Age,
    City); embedded below at top level / namespace `V1` semantics.
  * `backend /app.py` — the single-pass outer-join variant (ten-column
    schema); embedded in namespace `V2`.

Cell values are Python objects: strings, numbers, the float NaN produced by
the spreadsheet reader for empty cells, and None.  `pandas` specifics that the
embedding reproduces:
  * `pd.merge(b, n, how="inner", on=COLUMNS)` emits one output row per
    matching (left row, right row) pair, preserving the order of the left
    keys; since every column is a key, the output row equals the common row.
  * `pd.merge(..., how="outer", indicator=True, on=COLUMNS)` partitions rows
    into both / left_only / right_only by full-row equality; left rows keep
    benchmark order, right-only rows keep new-table order.
  * merge key comparison treats missing values (None after normalization) as
    equal to each other.
  * Python set iteration order (for `common_ids`) is unspecified; the
    embedding fixes benchmark first-occurrence order.  No theorem below
    depends on that order.
-/

inductive Val where
  | str : String → Val
  | num : Int → Val
  | nan : Val
  | null : Val
deriving DecidableEq

/-- The characters matched by the regex class in `r'^\s*$'`. -/
def pyWhitespace : List Char := [' ', '\t', '\n', '\r', '\x0b', '\x0c']

/-- True when the regex `^\s*$` matches: empty or whitespace-only string. -/
def isBlank (s : String) : Bool := s.data.all (fun c => decide (c ∈ pyWhitespace))

/-- Columns of the pairwise variant: `COLUMNS = ["ID", "Name", "Age", "City"]`. -/
inductive Col where
  | ID | Name | Age | City
deriving DecidableEq

def COLUMNS : List Col := [.ID, .Name, .Age, .City]

def Col.cname : Col → String
  | .ID => "ID"
  | .Name => "Name"
  | .Age => "Age"
  | .City => "City"

/-- A row of the four-column schema. -/
structure Row where
  id : Val
  name : Val
  age : Val
  city : Val
deriving DecidableEq

def Row.get (r : Row) : Col → Val
  | .ID => r.id
  | .Name => r.name
  | .Age => r.age
  | .City => r.city

/-- First stage of `normalize_nulls`: `df.where(pd.notnull(df), None)` sends
NaN cells to None and leaves everything else alone. -/
def whereNotNull : Val → Val
  | .nan => .null
  | v => v

/-- Second stage: `.replace(r'^\s*$', None, regex=True)` sends empty and
whitespace-only strings to None; non-string cells are untouched. -/
def replaceBlank : Val → Val
  | .str s => if isBlank s then .null else .str s
  | v => v

def normVal (v : Val) : Val := replaceBlank (whereNotNull v)

def normRow (r : Row) : Row :=
  ⟨normVal r.id, normVal r.name, normVal r.age, normVal r.city⟩

/-- Cell-wise `normalize_nulls` of the pairwise variant. -/
def normalize_nulls (t : List Row) : List Row := t.map normRow

/-- Embedding of `pd.merge(df_benchmark, df_new, how="inner", on=COLUMNS)`: one output row
per equal (benchmark row, new row) pair, in benchmark order. -/
def innerMergeAll (b n : List Row) : List Row :=
  b.flatMap (fun r => (n.filter (fun s => decide (s = r))).map (fun _ => r))

/-- The `left_only` rows of the full-row outer merge: benchmark rows with no
fully equal row in the new table, in benchmark order. -/
def onlyInBenchmark (b n : List Row) : List Row :=
  b.filter (fun r => decide (r ∉ n))

/-- The `right_only` rows of the full-row outer merge: new-table rows with no
fully equal row in the benchmark, in new-table order. -/
def onlyInNew (b n : List Row) : List Row :=
  n.filter (fun r => decide (r ∉ b))

/-- Values admitted by `set(df['ID'].dropna())`: the non-missing ID values of a
table.  `dropna` removes NaN/None entries. -/
def nonNullIds (t : List Row) : List Val :=
  (t.map (fun r => r.id)).filter (fun v => decide (v ≠ .null ∧ v ≠ .nan))

/-- The set `common_ids = benchmark_ids.intersection(new_ids)`.  Python set iteration
order is unspecified; deduplicated benchmark order is fixed here, and no
theorem depends on the choice. -/
def commonIds (b n : List Row) : List Val :=
  (nonNullIds b).dedup.filter (fun v => decide (v ∈ nonNullIds n))

/-- The changed-column scan of the modified-row loop: non-ID columns, in
schema order, whose benchmark and new values differ. -/
def changesFor (br nr : Row) : List Col :=
  COLUMNS.filter (fun c => decide (c ≠ .ID) && decide (br.get c ≠ nr.get c))

/-- Python `", ".join(changes)`. -/
def joinComma : List String → String
  | [] => ""
  | [x] => x
  | x :: xs => x ++ ", " ++ joinComma xs

/-- The body of the `for id_val in common_ids` loop: a modified row is
emitted only when the ID selects exactly one row in each table and some
non-ID column differs; the emitted row is the new table's version together
with its change summary. -/
def modifiedFor (b n : List Row) (idv : Val) : List (Row × String) :=
  match b.filter (fun r => decide (r.id = idv)),
        n.filter (fun r => decide (r.id = idv)) with
  | [bench], [newr] =>
    let changes := changesFor bench newr
    if changes.isEmpty then []
    else [(newr, joinComma (changes.map Col.cname))]
  | _, _ => []

def modifiedRows (b n : List Row) : List (Row × String) :=
  (commonIds b n).flatMap (modifiedFor b n)

/-- Embedding of `find_duplicates_and_unique`: returns the duplicates table (base schema)
and the unique table (rows paired with their `Change Summary` value), in the
source's order: modified rows, then `only_in_new` as "New Entry", then
`only_in_benchmark` as "Removed Entry". -/
def find_duplicates_and_unique (dfb dfn : List Row) :
    List Row × List (Row × String) :=
  let b := normalize_nulls dfb
  let n := normalize_nulls dfn
  (innerMergeAll b n,
   modifiedRows b n
     ++ (onlyInNew b n).map (fun r => (r, "New Entry"))
     ++ (onlyInBenchmark b n).map (fun r => (r, "Removed Entry")))

/-- The statistics block of `compare_files`: the handler normalizes both
tables, calls `find_duplicates_and_unique` on the result, and reports the
four lengths (benchmark_rows, new_rows, duplicates_count, unique_count). -/
def compareStats (dfb dfn : List Row) : Nat × Nat × Nat × Nat :=
  let b := normalize_nulls dfb
  let n := normalize_nulls dfn
  let r := find_duplicates_and_unique b n
  (b.length, n.length, r.1.length, r.2.length)

/-- Python `s.split(", ")`, scanning left to right; accumulator holds the
current fragment reversed. -/
def splitCS : List Char → List Char → List (List Char)
  | acc, ',' :: ' ' :: rest => acc.reverse :: splitCS [] rest
  | acc, c :: rest => splitCS (c :: acc) rest
  | acc, [] => [acc.reverse]

def pySplitCommaSpace (s : String) : List String :=
  (splitCS [] s.data).map (fun cs => ⟨cs⟩)

/-- The highlight decision of `save_with_highlights` for one row, as the list
of columns whose cell receives the fill: nothing for a falsy (empty) summary;
every schema column for "New Entry" / "Removed Entry"; otherwise the summary
is split on ", " and each fragment that names a schema column is
highlighted, unknown names being skipped by the `if col_name in COLUMNS`
guard. -/
def highlightCols (summary : String) : List Col :=
  if summary = "" then []
  else if summary = "New Entry" ∨ summary = "Removed Entry" then COLUMNS
  else (pySplitCommaSpace summary).filterMap
    (fun nm => COLUMNS.find? (fun c => decide (c.cname = nm)))

namespace V2

/-- Columns of the outer-join variant. -/
inductive Col where
  | ID | Name | Email | Phone | Address | City | State | Zip | Country | Status
deriving DecidableEq

def COLUMNS : List Col :=
  [.ID, .Name, .Email, .Phone, .Address, .City, .State, .Zip, .Country, .Status]

def Col.cname : Col → String
  | .ID => "ID"
  | .Name => "Name"
  | .Email => "Email"
  | .Phone => "Phone"
  | .Address => "Address"
  | .City => "City"
  | .State => "State"
  | .Zip => "Zip"
  | .Country => "Country"
  | .Status => "Status"

/-- A row of the ten-column schema. -/
structure Row where
  id : Val
  name : Val
  email : Val
  phone : Val
  address : Val
  city : Val
  state : Val
  zip : Val
  country : Val
  status : Val
deriving DecidableEq

def Row.get (r : Row) : Col → Val
  | .ID => r.id
  | .Name => r.name
  | .Email => r.email
  | .Phone => r.phone
  | .Address => r.address
  | .City => r.city
  | .State => r.state
  | .Zip => r.zip
  | .Country => r.country
  | .Status => r.status

def normRow (r : Row) : Row :=
  ⟨normVal r.id, normVal r.name, normVal r.email, normVal r.phone,
   normVal r.address, normVal r.city, normVal r.state, normVal r.zip,
   normVal r.country, normVal r.status⟩

def normalize_nulls (t : List Row) : List Row := t.map normRow

/-- The change summary this variant computes for one row of the outer-join
remainder: the first benchmark row with the same ID is compared column by
column (a cell pair that is None on both sides is skipped, then inequality
is appended); an empty change list, or no benchmark row with that ID, is
reported as "New Entry".  No branch produces "Removed Entry". -/
def summaryFor (b : List Row) (row : Row) : String :=
  match b.filter (fun rb => decide (rb.id = row.id)) with
  | [] => "New Entry"
  | bench :: _ =>
    let changes := COLUMNS.filter (fun c =>
      !(decide (row.get c = Val.null) && decide (bench.get c = Val.null))
        && decide (row.get c ≠ bench.get c))
    if changes.isEmpty then ("New Entry")
    else joinComma (changes.map Col.cname)

/-- Embedding of `highlight_differences` of the outer-join variant: the rows whose
indicator is not "both" (benchmark remainder in benchmark order, then
new-table remainder in new-table order), each paired with its summary. -/
def highlight_differences (dfb dfn : List Row) : List (Row × String) :=
  let b := normalize_nulls dfb
  let n := normalize_nulls dfn
  (b.filter (fun r => decide (r ∉ n)) ++ n.filter (fun r => decide (r ∉ b))).map
    (fun r => (r, summaryFor b r))

end V2

/-! Concrete inputs used by the closed theorems below. -/

/-- Benchmark table of the spec's concrete scenario; the Age column is not
given by the scenario, so the reader delivers NaN there. -/
def scBench : List Row :=
  [⟨.num 1, .str ("A"), .nan, .str ("X")⟩, ⟨.num 2, .str ("B"), .nan, .str ("Y")⟩]

/-- New table of the spec's concrete scenario. -/
def scNew : List Row :=
  [⟨.num 1, .str ("A"), .nan, .str ("Z")⟩, ⟨.num 3, .str ("C"), .nan, .str ("W")⟩]

def rowA : Row := ⟨.num 1, .str ("A"), .null, .str ("X")⟩

def rowB : Row := ⟨.num 2, .str ("B"), .null, .str ("Y")⟩

/-- A row carrying a NaN cell, to exercise normalization. -/
def rowNaN : Row := ⟨.num 1, .nan, .null, .null⟩

/-- Ten-column benchmark with a single row that the new table lacks. -/
def vBench : List V2.Row :=
  [⟨.num 2, .str ("B"), .null, .null, .null, .null, .null, .null, .null, .null⟩]

def vNew : List V2.Row := []

/-- Four-column analogue of `vBench` for the pairwise variant. -/
def pBench : List Row := [⟨.num 2, .str ("B"), .null, .null⟩]

def pNew : List Row := []

/-! ### Helper lemmas -/

lemma filterEq_length (n : List Row) (x : Row) :
    (n.filter (fun s => decide (s = x))).length = n.count x := by
  rw [← List.countP_eq_length_filter]
  apply List.countP_congr
  intro a _
  simp [beq_iff_eq]

lemma innerMergeAll_count (b n : List Row) (r : Row) :
    (innerMergeAll b n).count r = b.count r * n.count r := by
  induction b with
  | nil => simp [innerMergeAll]
  | cons x b ih =>
    simp only [innerMergeAll, List.flatMap_cons, List.count_append] at *
    rw [ih, List.count_cons, List.map_const', List.count_replicate, filterEq_length]
    by_cases h : r = x
    · subst h; simp [Nat.add_mul, Nat.add_comm]
    · have hx : x ≠ r := fun hh => h hh.symm
      simp [h, hx]

lemma mem_innerMergeAll (b n : List Row) (r : Row) :
    r ∈ innerMergeAll b n ↔ r ∈ b ∧ r ∈ n := by
  rw [← List.count_pos_iff, innerMergeAll_count, ← List.count_pos_iff (l := b),
    ← List.count_pos_iff (l := n)]
  constructor
  · intro h
    refine ⟨Nat.pos_of_ne_zero fun h0 => ?_, Nat.pos_of_ne_zero fun h0 => ?_⟩ <;>
      simp [h0] at h
  · intro h
    exact Nat.mul_pos h.1 h.2

/-! ### Claims C1 to C4 -/

/-- Claim C1: the spec's concrete scenario is expected to return an empty
DuplicatesTable and a three-row UniqueTable with stats (2, 2, 0, 3).  The
code instead returns a five-row UniqueTable: besides the changed row
annotated "City", the new version of the changed row reappears as
"New Entry", its benchmark version reappears as "Removed Entry", and the
stats are (2, 2, 0, 5).  This theorem evaluates the embedded code on the
scenario, exhibiting the divergence. -/
theorem C1_concrete_scenario_eval :
    (find_duplicates_and_unique scBench scNew).1 = [] ∧
    (find_duplicates_and_unique scBench scNew).2.length = 5 ∧
    (find_duplicates_and_unique scBench scNew).2.count
      (⟨.num 1, .str ("A"), .null, .str ("Z")⟩, "City") = 1 ∧
    (find_duplicates_and_unique scBench scNew).2.count
      (⟨.num 1, .str ("A"), .null, .str ("Z")⟩, "New Entry") = 1 ∧
    (find_duplicates_and_unique scBench scNew).2.count
      (⟨.num 3, .str ("C"), .null, .str ("W")⟩, "New Entry") = 1 ∧
    (find_duplicates_and_unique scBench scNew).2.count
      (⟨.num 1, .str ("A"), .null, .str ("X")⟩, "Removed Entry") = 1 ∧
    (find_duplicates_and_unique scBench scNew).2.count
      (⟨.num 2, .str ("B"), .null, .str ("Y")⟩, "Removed Entry") = 1 ∧
    compareStats scBench scNew = (2, 2, 0, 5) := by decide

/-- Claim C2: completeness.  On the scenario input the left side of the
claimed identity `len(Duplicates) + len(Unique) = len(normalized new) +
removed-row count` evaluates to 5 while the right side evaluates to 4: the
changed row appears twice among the outputs (and its stale benchmark version
a third time), so the claimed partition fails on the code. -/
theorem C2_completeness_violation_eval :
    (find_duplicates_and_unique scBench scNew).1.length +
      (find_duplicates_and_unique scBench scNew).2.length = 5 ∧
    (normalize_nulls scNew).length +
      (onlyInBenchmark (normalize_nulls scBench) (normalize_nulls scNew)).length
        = 4 := by decide

/-- Claim C3: the UniqueTable is claimed to be the concatenation of changed
rows, added rows ("New Entry"), and removed rows ("Removed Entry").  On the
scenario the "New Entry" section contains a row whose ID (1) also occurs in
the benchmark, and the "Removed Entry" section contains a row whose ID also
occurs in the new table, so those sections are not the added and removed
classes: the changed row's two versions leak into both. -/
theorem C3_sections_content_eval :
    ((⟨.num 1, .str ("A"), .null, .str ("Z")⟩, "New Entry")
        ∈ (find_duplicates_and_unique scBench scNew).2) ∧
    Val.num 1 ∈ (normalize_nulls scBench).map Row.id ∧
    ((⟨.num 1, .str ("A"), .null, .str ("X")⟩, "Removed Entry")
        ∈ (find_duplicates_and_unique scBench scNew).2) ∧
    Val.num 1 ∈ (normalize_nulls scNew).map Row.id ∧
    ((⟨.num 1, .str ("A"), .null, .str ("Z")⟩, "City")
        ∈ (find_duplicates_and_unique scBench scNew).2) := by decide

/-- Claim C4, counterexample.  First conjunct: with benchmark [rowA, rowA]
and new table [rowA], the DuplicatesTable holds rowA twice although the new
table holds it once — the claimed multiplicity bound fails (pandas inner
join multiplies multiplicities).  Second conjunct: with benchmark
[rowA, rowB] and new table [rowB, rowA], the DuplicatesTable is
[rowA, rowB], i.e. benchmark order, not the claimed new-table order. -/
theorem C4_multiplicity_order_cex :
    ((find_duplicates_and_unique [rowA, rowA] [rowA]).1.count rowA = 2 ∧
      (normalize_nulls [rowA]).count rowA = 1) ∧
    ((find_duplicates_and_unique [rowA, rowB] [rowB, rowA]).1 = [rowA, rowB] ∧
      normalize_nulls [rowB, rowA] = [rowB, rowA]) := by decide

/-- Claim C4, amended: a row belongs to the DuplicatesTable iff all its
fields (including ID), after normalization, coincide with those of some
benchmark row and the row occurs in the normalized new table; its
multiplicity is the product of its multiplicities in the two normalized
tables (so two rows sharing an ID but differing in content are never counted
as duplicates); the table carries the base schema only.  Order is benchmark
order, not new-table order. -/
theorem C4_duplicates_membership_count (dfb dfn : List Row) (r : Row) :
    (r ∈ (find_duplicates_and_unique dfb dfn).1 ↔
      r ∈ normalize_nulls dfb ∧ r ∈ normalize_nulls dfn) ∧
    (find_duplicates_and_unique dfb dfn).1.count r =
      (normalize_nulls dfb).count r * (normalize_nulls dfn).count r := by
  constructor
  · exact mem_innerMergeAll (normalize_nulls dfb) (normalize_nulls dfn) r
  · exact innerMergeAll_count (normalize_nulls dfb) (normalize_nulls dfn) r

/-- Witness for the amended C4 at the scenario input and the changed row. -/
theorem C4_duplicates_membership_count_w :
    ((⟨.num 1, .str ("A"), .null, .str ("Z")⟩ : Row)
        ∈ (find_duplicates_and_unique scBench scNew).1 ↔
      (⟨.num 1, .str ("A"), .null, .str ("Z")⟩ : Row) ∈ normalize_nulls scBench ∧
      (⟨.num 1, .str ("A"), .null, .str ("Z")⟩ : Row) ∈ normalize_nulls scNew) ∧
    (find_duplicates_and_unique scBench scNew).1.count
        ⟨.num 1, .str ("A"), .null, .str ("Z")⟩ =
      (normalize_nulls scBench).count ⟨.num 1, .str ("A"), .null, .str ("Z")⟩ *
        (normalize_nulls scNew).count ⟨.num 1, .str ("A"), .null, .str ("Z")⟩ :=
  C4_duplicates_membership_count scBench scNew ⟨.num 1, .str ("A"), .null, .str ("Z")⟩

/-! ### Normalization lemmas, claims C10 and C8 -/

lemma normVal_idem (v : Val) : normVal (normVal v) = normVal v := by
  cases v with
  | str s =>
    simp only [normVal, whereNotNull, replaceBlank]
    by_cases h : isBlank s <;> simp [h]
  | num n => rfl
  | nan => rfl
  | null => rfl

lemma normRow_idem (r : Row) : normRow (normRow r) = normRow r := by
  cases r; simp [normRow, normVal_idem]

lemma normalize_nulls_idem (t : List Row) :
    normalize_nulls (normalize_nulls t) = normalize_nulls t := by
  simp [normalize_nulls, Function.comp, normRow_idem]

/-- Claim C10: the normalizer is idempotent, so the second normalization the
/compare handler performs before calling `find_duplicates_and_unique` (which
normalizes again) changes nothing: the reconciliation of pre-normalized
tables equals the reconciliation of the raw tables. -/
theorem C10_normalize_idempotent :
    (∀ t : List Row, normalize_nulls (normalize_nulls t) = normalize_nulls t) ∧
    (∀ dfb dfn : List Row,
      find_duplicates_and_unique (normalize_nulls dfb) (normalize_nulls dfn) =
        find_duplicates_and_unique dfb dfn) := by
  refine ⟨normalize_nulls_idem, fun dfb dfn => ?_⟩
  simp only [find_duplicates_and_unique, normalize_nulls_idem]

/-- The condition under which §4.1 of the spec replaces a cell with null:
a floating NaN marker or an empty/whitespace-only string. -/
def nanOrBlank : Val → Bool
  | .nan => true
  | .str s => isBlank s
  | _ => false

lemma normVal_eq_spec (v : Val) :
    normVal v = if nanOrBlank v then Val.null else v := by
  cases v with
  | str s => simp [normVal, whereNotNull, replaceBlank, nanOrBlank]
  | num n => rfl
  | nan => rfl
  | null => rfl

lemma normRow_get (r : Row) (c : Col) : (normRow r).get c = normVal (r.get c) := by
  cases c <;> rfl

/-- Claim C8: normalization is a pure cell-wise transformation: the table
keeps its length, and every cell becomes null exactly when it was a NaN
marker or an empty/whitespace-only string, and is otherwise passed through
unchanged (no coercion, no trimming of non-blank strings). -/
theorem C8_normalize_cells (t : List Row) :
    (normalize_nulls t).length = t.length ∧
    ∀ (i : Nat) (d : Row) (c : Col), i < t.length →
      ((normalize_nulls t).getD i d).get c =
        (if nanOrBlank ((t.getD i d).get c) then Val.null
         else (t.getD i d).get c) := by
  refine ⟨by simp [normalize_nulls], fun i d c hi => ?_⟩
  have hga : (normalize_nulls t).getD i d = normRow (t.getD i d) := by
    simp only [normalize_nulls, List.getD_eq_getElem?_getD, List.getElem?_map]
    rw [List.getElem?_eq_getElem hi]
    simp
  rw [hga, normRow_get, normVal_eq_spec]

/-- Witness for C8 at the scenario benchmark: the NaN cell in row 0's Age
column is sent to null. -/
theorem C8_normalize_cells_w :
    (0 : Nat) < scBench.length ∧
    ((normalize_nulls scBench).getD 0 rowA).get .Age =
      (if nanOrBlank ((scBench.getD 0 rowA).get .Age) then Val.null
       else (scBench.getD 0 rowA).get .Age) :=
  ⟨by decide, (C8_normalize_cells scBench).2 0 rowA .Age (by decide)⟩

/-! ### Claim C7: reconciling a table with itself -/

lemma innerMergeAll_of_count_one (b n : List Row) (h : ∀ x ∈ b, n.count x = 1) :
    innerMergeAll b n = b := by
  induction b with
  | nil => rfl
  | cons x b ih =>
    simp only [innerMergeAll, List.flatMap_cons] at *
    rw [List.map_const', filterEq_length, h x (List.mem_cons_self x b),
      ih (fun y hy => h y (List.mem_cons_of_mem x hy))]
    rfl

lemma modifiedFor_self (b : List Row) (idv : Val) : modifiedFor b b idv = [] := by
  unfold modifiedFor
  cases hb : b.filter (fun r => decide (r.id = idv)) with
  | nil => rfl
  | cons bench rest =>
    cases rest with
    | nil => simp [changesFor, COLUMNS]
    | cons y ys => rfl

lemma modifiedRows_self (b : List Row) : modifiedRows b b = [] := by
  simp [modifiedRows, List.flatMap_eq_nil_iff, modifiedFor_self]

/-- Claim C7, counterexample.  The claim fails in two ways.  With
t = [rowA, rowA], the DuplicatesTable has four rows (pandas inner join
multiplies the multiplicities), not the two rows of t.  With t = [rowNaN],
the DuplicatesTable holds the normalized row, which differs from the row of
t (its NaN became null), so it is not "the whole table t" either. -/
theorem C7_self_compare_cex :
    ((find_duplicates_and_unique [rowA, rowA] [rowA, rowA]).1.length = 4 ∧
      ([rowA, rowA] : List Row).length = 2) ∧
    ((find_duplicates_and_unique [rowNaN] [rowNaN]).1
        = [⟨.num 1, .null, .null, .null⟩] ∧
      rowNaN ≠ ⟨.num 1, .null, .null, .null⟩) := by decide

/-- Claim C7, amended: for every table t whose normalized rows are pairwise
distinct, reconciling t against an identical copy of itself yields a
DuplicatesTable equal to the normalized table and an empty UniqueTable.
(Without distinctness the duplicates are multiplied; without normalization
NaN and blank cells are rewritten in the output.) -/
theorem C7_self_reconcile_nodup (t : List Row)
    (h : (normalize_nulls t).Nodup) :
    (find_duplicates_and_unique t t).1 = normalize_nulls t ∧
    (find_duplicates_and_unique t t).2 = [] := by
  constructor
  · exact innerMergeAll_of_count_one _ _
      (fun x hx => List.count_eq_one_of_mem h hx)
  · show modifiedRows _ _ ++ _ ++ _ = []
    rw [modifiedRows_self]
    simp [onlyInNew, onlyInBenchmark, List.filter_eq_nil_iff]

/-- Witness for the amended C7 at the scenario benchmark table. -/
theorem C7_self_reconcile_nodup_w :
    (find_duplicates_and_unique scBench scBench).1 = normalize_nulls scBench ∧
    (find_duplicates_and_unique scBench scBench).2 = [] :=
  C7_self_reconcile_nodup scBench (by decide)

/-! ### Claim C5: unkeyed rows never pair -/

lemma modifiedRows_mem {b n : List Row} {r : Row} {s : String}
    (h : (r, s) ∈ modifiedRows b n) :
    ∃ idv bench,
      idv ∈ commonIds b n ∧
      b.filter (fun x => decide (x.id = idv)) = [bench] ∧
      n.filter (fun x => decide (x.id = idv)) = [r] ∧
      changesFor bench r ≠ [] ∧
      s = joinComma ((changesFor bench r).map Col.cname) := by
  simp only [modifiedRows, List.mem_flatMap] at h
  obtain ⟨idv, hidv, hmem⟩ := h
  unfold modifiedFor at hmem
  split at hmem
  · next bench newr hb hn =>
    dsimp only at hmem
    split at hmem
    · cases hmem
    · next hne =>
      simp only [List.mem_singleton, Prod.mk.injEq] at hmem
      obtain ⟨hr, hs⟩ := hmem
      subst hr
      exact ⟨idv, bench, hidv, hb, hn,
        fun hnil => hne (by rw [hnil]; rfl), hs⟩
  · cases hmem

lemma commonIds_props {b n : List Row} {idv : Val} (h : idv ∈ commonIds b n) :
    idv ≠ Val.null ∧ idv ≠ Val.nan := by
  simp only [commonIds, List.mem_filter, List.mem_dedup, nonNullIds,
    decide_eq_true_eq] at h
  obtain ⟨⟨_, hprop⟩, _⟩ := h
  exact hprop

/-- Claim C5: a row with a null (or NaN) ID, or whose ID occurs more than
once within its own table, is never classified as a modified pair — every
row emitted by the pairing loop has a non-missing ID that selects exactly
one row in each normalized table — and a row without a full-row match in
the other table is instead reported through the full-row-equality path as
"New Entry" / "Removed Entry", whatever its ID. -/
theorem C5_unkeyed_rows_excluded (dfb dfn : List Row) :
    (∀ r s, (r, s) ∈ modifiedRows (normalize_nulls dfb) (normalize_nulls dfn) →
      r.id ≠ Val.null ∧ r.id ≠ Val.nan ∧
      ((normalize_nulls dfb).filter (fun x => decide (x.id = r.id))).length = 1 ∧
      ((normalize_nulls dfn).filter (fun x => decide (x.id = r.id))).length = 1) ∧
    (∀ r, r ∈ normalize_nulls dfn → r ∉ normalize_nulls dfb →
      (r, "New Entry") ∈ (find_duplicates_and_unique dfb dfn).2) ∧
    (∀ r, r ∈ normalize_nulls dfb → r ∉ normalize_nulls dfn →
      (r, "Removed Entry") ∈ (find_duplicates_and_unique dfb dfn).2) := by
  refine ⟨fun r s h => ?_, fun r hmem hnot => ?_, fun r hmem hnot => ?_⟩
  · obtain ⟨idv, bench, hidv, hb, hn, _, _⟩ := modifiedRows_mem h
    have hr : r.id = idv := by
      have : r ∈ (normalize_nulls dfn).filter (fun x => decide (x.id = idv)) := by
        rw [hn]; exact List.mem_singleton_self r
      simpa using (List.mem_filter.mp this).2
    obtain ⟨h1, h2⟩ := commonIds_props hidv
    rw [hr]
    exact ⟨h1, h2, by rw [hb]; rfl, by rw [hn]; rfl⟩
  · show _ ∈ modifiedRows _ _ ++ _ ++ _
    refine List.mem_append.mpr (Or.inl (List.mem_append.mpr (Or.inr ?_)))
    exact List.mem_map.mpr ⟨r, List.mem_filter.mpr ⟨hmem, by simpa using hnot⟩, rfl⟩
  · show _ ∈ modifiedRows _ _ ++ _ ++ _
    refine List.mem_append.mpr (Or.inr ?_)
    exact List.mem_map.mpr ⟨r, List.mem_filter.mpr ⟨hmem, by simpa using hnot⟩, rfl⟩

/-- Witness for C5 at the scenario: the changed row (ID 1) indeed has a
non-missing ID selecting exactly one row per table. -/
theorem C5_unkeyed_rows_excluded_w :
    (⟨.num 1, .str ("A"), .null, .str ("Z")⟩ : Row).id ≠ Val.null ∧
    (⟨.num 1, .str ("A"), .null, .str ("Z")⟩ : Row).id ≠ Val.nan ∧
    ((normalize_nulls scBench).filter
      (fun x => decide (x.id = (⟨.num 1, .str ("A"), .null, .str ("Z")⟩ : Row).id))).length = 1 ∧
    ((normalize_nulls scNew).filter
      (fun x => decide (x.id = (⟨.num 1, .str ("A"), .null, .str ("Z")⟩ : Row).id))).length = 1 :=
  (C5_unkeyed_rows_excluded scBench scNew).1
    ⟨.num 1, .str ("A"), .null, .str ("Z")⟩ ("City") (by decide)

/-! ### Claim C6: the highlight mapping -/

lemma split_join_changes :
    ∀ l ∈ (COLUMNS : List Col).sublists, Col.ID ∉ l → l ≠ [] →
      joinComma (l.map Col.cname) ≠ "" ∧
      pySplitCommaSpace (joinComma (l.map Col.cname)) = l.map Col.cname ∧
      (l.map Col.cname).filterMap
        (fun nm => COLUMNS.find? (fun c => decide (c.cname = nm))) = l := by decide

lemma changesFor_id_not_mem (br nr : Row) : Col.ID ∉ changesFor br nr := by
  intro h
  have := (List.mem_filter.mp h).2
  simp at this

lemma find?_cname (c : Col) :
    COLUMNS.find? (fun x => decide (x.cname = c.cname)) = some c := by
  cases c <;> rfl

/-- Claim C6: the highlight mapping.  For every UniqueTable row: a
"New Entry"/"Removed Entry" summary highlights every schema column; any
other summary is the comma join of a non-empty list of non-ID schema
columns, and exactly those columns are highlighted (ID never among them).
Moreover, for an arbitrary summary string, a column is highlighted iff its
name occurs among the split fragments, so fragments naming no schema column
are ignored rather than failing. -/
theorem C6_highlight_mapping (dfb dfn : List Row) :
    (∀ r s, (r, s) ∈ (find_duplicates_and_unique dfb dfn).2 →
      ((s = "New Entry" ∨ s = "Removed Entry") → highlightCols s = COLUMNS) ∧
      (s ≠ "New Entry" → s ≠ "Removed Entry" →
        ∃ changes : List Col, changes ≠ [] ∧ Col.ID ∉ changes ∧
          changes.Sublist COLUMNS ∧
          s = joinComma (changes.map Col.cname) ∧
          highlightCols s = changes)) ∧
    (∀ s : String, s ≠ "" → s ≠ "New Entry" → s ≠ "Removed Entry" →
      ∀ c : Col, c ∈ highlightCols s ↔ c.cname ∈ pySplitCommaSpace s) := by
  constructor
  · intro r s hm
    constructor
    · rintro (rfl | rfl) <;> decide
    · intro hne1 hne2
      replace hm : (r, s) ∈
          modifiedRows (normalize_nulls dfb) (normalize_nulls dfn)
            ++ (onlyInNew (normalize_nulls dfb) (normalize_nulls dfn)).map
                (fun x => (x, "New Entry"))
            ++ (onlyInBenchmark (normalize_nulls dfb) (normalize_nulls dfn)).map
                (fun x => (x, "Removed Entry")) := hm
      rcases List.mem_append.mp hm with hm2 | hm2
      · rcases List.mem_append.mp hm2 with hm3 | hm3
        · obtain ⟨idv, bench, _, _, _, hnil, hs⟩ := modifiedRows_mem hm3
          refine ⟨changesFor bench r, hnil, changesFor_id_not_mem bench r,
            List.filter_sublist _, hs, ?_⟩
          have hsub : changesFor bench r ∈ (COLUMNS : List Col).sublists :=
            List.mem_sublists.mpr (List.filter_sublist _)
          obtain ⟨hstr, hsplit, hfm⟩ :=
            split_join_changes (changesFor bench r) hsub
              (changesFor_id_not_mem bench r) hnil
          subst hs
          rw [highlightCols, if_neg hstr, if_neg (not_or.mpr ⟨hne1, hne2⟩),
            hsplit, hfm]
        · obtain ⟨x, _, hx⟩ := List.mem_map.mp hm3
          exact absurd (congrArg Prod.snd hx).symm hne1
      · obtain ⟨x, _, hx⟩ := List.mem_map.mp hm2
        exact absurd (congrArg Prod.snd hx).symm hne2
  · intro s h0 h1 h2 c
    rw [highlightCols, if_neg h0, if_neg (not_or.mpr ⟨h1, h2⟩)]
    rw [List.mem_filterMap]
    constructor
    · rintro ⟨nm, hnm, hfind⟩
      have := List.find?_some hfind
      simp only [decide_eq_true_eq] at this
      rwa [this]
    · intro hmem
      exact ⟨c.cname, hmem, find?_cname c⟩

/-- Witness for C6 at the scenario's changed row: its summary "City" is the
join of the single changed column, and exactly that column is highlighted. -/
theorem C6_highlight_mapping_w :
    ∃ changes : List Col, changes ≠ [] ∧ Col.ID ∉ changes ∧
      changes.Sublist COLUMNS ∧
      "City" = joinComma (changes.map Col.cname) ∧
      highlightCols ("City") = changes :=
  ((C6_highlight_mapping scBench scNew).1 ⟨.num 1, .str ("A"), .null, .str ("Z")⟩
    "City" (by decide)).2 (by decide) (by decide)

/-! ### Claim C9: the two variants disagree on removed rows -/

lemma joinComma_cons (x : String) (xs : List String) :
    ∃ t : String, joinComma (x :: xs) = x ++ t := by
  cases xs with
  | nil => exact ⟨"", (String.append_empty x).symm⟩
  | cons y ys =>
    exact ⟨", " ++ joinComma (y :: ys),
      String.append_assoc x (", ") (joinComma (y :: ys))⟩

lemma join_cname_ne_removed (c : V2.Col) (xs : List String) :
    joinComma (V2.Col.cname c :: xs) ≠ "Removed Entry" := by
  obtain ⟨t, ht⟩ := joinComma_cons (V2.Col.cname c) xs
  rw [ht]
  intro h
  have hd := congrArg String.data h
  rw [String.data_append] at hd
  have hh := congrArg List.head? hd
  cases c <;> simp [V2.Col.cname] at hh

lemma if_join_ne_removed (changes : List V2.Col) :
    (if changes.isEmpty then ("New Entry")
     else joinComma (changes.map V2.Col.cname)) ≠ "Removed Entry" := by
  cases changes with
  | nil => decide
  | cons c cs =>
    rw [List.isEmpty_cons, if_neg (by decide), List.map_cons]
    exact join_cname_ne_removed c (cs.map V2.Col.cname)

lemma summaryFor_ne_removed (b : List V2.Row) (row : V2.Row) :
    V2.summaryFor b row ≠ "Removed Entry" := by
  unfold V2.summaryFor
  split
  · decide
  · exact if_join_ne_removed _

/-- Claim C9: the outer-join variant never emits the removed-entry marker —
every summary it computes is either "New Entry" or a join of changed column
names — whereas on a table pair with a benchmark-only row the pairwise
variant reports that row as "Removed Entry" and the outer-join variant
reports it as "New Entry"; the two engines are therefore observably
different functions. -/
theorem C9_variants_divergence :
    (∀ dfb dfn : List V2.Row,
      ((V2.highlight_differences dfb dfn).map Prod.snd).count ("Removed Entry")
        = 0) ∧
    (V2.highlight_differences vBench vNew).map Prod.snd = ["New Entry"] ∧
    (find_duplicates_and_unique pBench pNew).2 =
      [(⟨.num 2, .str ("B"), .null, .null⟩, "Removed Entry")] := by
  refine ⟨fun dfb dfn => ?_, by decide, by decide⟩
  rw [List.count_eq_zero]
  intro hmem
  replace hmem : "Removed Entry" ∈
      ((V2.normalize_nulls dfb).filter
          (fun r => decide (r ∉ V2.normalize_nulls dfn))
        ++ (V2.normalize_nulls dfn).filter
          (fun r => decide (r ∉ V2.normalize_nulls dfb))).map
        (fun r => V2.summaryFor (V2.normalize_nulls dfb) r) := by
    simpa [V2.highlight_differences, List.map_map, Function.comp] using hmem
  obtain ⟨r, _, hr⟩ := List.mem_map.mp hmem
  exact summaryFor_ne_removed (V2.normalize_nulls dfb) r hr
